import Mathlib

/-!
Shallow embedding of the triage pipeline of the stock-news-monitor
repository (main.py, src/ai_judge.py, src/mail_handler.py, src/main.py).

External effects (HTTP requests to the news provider and the language
model, SMTP/IMAP sessions) are modelled as oracle parameters or as
explicit action traces; everything the repository itself computes is
translated function by function from the Python source.
-/

namespace StockNews

/-! ## Python string primitives

The Variant-B response parser works character by character on the raw
model response, so the Python string operations it uses (`in`, `strip`,
`split`, `replace`, `int(...)`) are modelled directly over `List Char`. -/

/-- Python substring test `needle in hay`, as a Bool over char lists. -/
def charsContains (needle : List Char) : List Char → Bool
  | [] => needle.isEmpty
  | c :: t => needle.isPrefixOf (c :: t) || charsContains needle t

/-- Python `needle in hay` for strings. -/
def strContains (hay needle : String) : Bool :=
  charsContains needle.data hay.data

/-- Python `s.strip()`: remove leading and trailing whitespace.
(CPython strips a slightly larger whitespace set than `Char.isWhitespace`;
no claim depends on the exotic characters.) -/
def pyStrip (l : List Char) : List Char :=
  ((l.dropWhile Char.isWhitespace).reverse.dropWhile Char.isWhitespace).reverse

/-- Everything before the first occurrence of `sep`: Python
`s.split(sep)[0]` for a single-character separator. -/
def charsTakeUntil (sep : Char) : List Char → List Char
  | [] => []
  | c :: rest => if c = sep then [] else c :: charsTakeUntil sep rest

/-- Python `s.split(sep)` for a single-character separator:
`''.split(sep) = ['']`, and every separator occurrence cuts. -/
def pySplitChar (sep : Char) : List Char → List (List Char)
  | [] => [[]]
  | c :: rest =>
    let r := pySplitChar sep rest
    if c = sep then [] :: r
    else (c :: r.headD []) :: r.tail

/-- Left-to-right non-overlapping replacement of a non-empty pattern,
with explicit fuel (one unit per examined position; fuel = input length
suffices for a non-empty pattern). -/
def charsReplaceAux (pat repl : List Char) : Nat → List Char → List Char
  | _, [] => []
  | 0, l => l
  | fuel + 1, c :: rest =>
    if pat.isPrefixOf (c :: rest) then
      repl ++ charsReplaceAux pat repl fuel ((c :: rest).drop pat.length)
    else
      c :: charsReplaceAux pat repl fuel rest

/-- Python `s.replace(pat, repl)` for a non-empty pattern. -/
def pyReplace (s pat repl : String) : String :=
  String.mk (charsReplaceAux pat.data repl.data s.data.length s.data)

/-- Python `int(s)`: strip surrounding whitespace, then an optional sign
followed by a non-empty run of ASCII digits; `none` models `ValueError`.
(CPython additionally accepts underscore separators and non-ASCII
digits; no claim depends on those.) -/
def pyInt (s : String) : Option Int :=
  match pyStrip s.data with
  | '-' :: ds =>
    if ds.isEmpty then none
    else if ds.all Char.isDigit then
      some (-(Int.ofNat (ds.foldl (fun a c => a * 10 + (c.toNat - 48)) 0)))
    else none
  | '+' :: ds =>
    if ds.isEmpty then none
    else if ds.all Char.isDigit then
      some (Int.ofNat (ds.foldl (fun a c => a * 10 + (c.toNat - 48)) 0))
    else none
  | ds =>
    if ds.isEmpty then none
    else if ds.all Char.isDigit then
      some (Int.ofNat (ds.foldl (fun a c => a * 10 + (c.toNat - 48)) 0))
    else none

/-- Python list subscription `l[i]` with an `Int` index: negative indices
count from the end; `none` models `IndexError`. -/
def pyIndex {α : Type} (l : List α) (i : Int) : Option α :=
  if i < 0 then
    if i + (l.length : Int) < 0 then none else l.get? (i + (l.length : Int)).toNat
  else l.get? i.toNat

/-! ## Data model and keyword configuration (main.py lines 38-43) -/

/-- The candidate dictionary built in `fetch_stock_news` (main.py
lines 143-149): keys ticker / title / time / link / type. -/
structure NewsItem where
  ticker : String
  title : String
  time : String
  link : String
  type : String
deriving DecidableEq

def IGNORE_KEYWORDS : List String :=
  ["PR TIMES", "キャンペーン", "開催", "お知らせ", "募集", "オープン", "記念", "発売"]

def BAD_KEYWORDS : List String :=
  ["下方修正", "減益", "赤字", "損失", "暴落", "ストップ安", "提訴", "訴訟", "疑義",
   "監理", "廃止", "売却", "不祥事", "不正", "リコール"]

def GOOD_KEYWORDS : List String :=
  ["上方修正", "増益", "復配", "増配", "自社株買い", "株式分割", "提携", "買収",
   "ストップ高", "最高益", "黒字化", "承認"]

/-! ## News collector (main.py `fetch_stock_news`, lines 106-155)

A raw provider item carries `providerPublishTime`, `title`, `link`.
The timestamp conversion `datetime.fromtimestamp(..)` composed with
`strftime('%m/%d %H:%M')` is passed in as the formatting oracle `fmt`;
the time-window comparison itself is on the absolute timestamps. -/

structure RawItem where
  providerPublishTime : Int
  title : String
  link : String
deriving DecidableEq

/-- The per-item body of the loop in `fetch_stock_news` (main.py lines
124-149): time filter, then ignore filter, then keyword classification;
`none` means `continue` without appending a candidate. -/
def classifyItem (startT endT : Int) (fmt : Int → String) (ticker : String)
    (it : RawItem) : Option NewsItem :=
  if startT ≤ it.providerPublishTime ∧ it.providerPublishTime ≤ endT then
    if IGNORE_KEYWORDS.any (fun k => strContains it.title k) then none
    else
      let is_bad := BAD_KEYWORDS.any (fun k => strContains it.title k)
      let is_good := GOOD_KEYWORDS.any (fun k => strContains it.title k)
      if is_bad || is_good then
        some
          { ticker := ticker
            title := it.title
            time := fmt it.providerPublishTime
            link := it.link
            type := if is_bad then "BAD" else "GOOD" }
      else none
  else none

/-- `fetch_stock_news` after the per-ticker news retrieval: `fetched`
pairs each ticker with either its raw item list or an exception
( `.error ()` models the per-ticker `except` that skips the ticker). -/
def fetch_stock_news (startT endT : Int) (fmt : Int → String)
    (fetched : List (String × Except Unit (List RawItem))) : List NewsItem :=
  fetched.foldl
    (fun acc tr =>
      match tr.2 with
      | .error _ => acc
      | .ok items => acc ++ items.filterMap (classifyItem startT endT fmt tr.1))
    []

/-! ## Batching

Python's `for i in range(0, len(l), n): chunk = l[i:i+n]`, written with
explicit fuel so that it is structurally recursive (fuel = list length
suffices whenever `n > 0`). -/

def chunksOfAux {α : Type} (n : Nat) : Nat → List α → List (List α)
  | _, [] => []
  | 0, _ => []
  | fuel + 1, l => l.take n :: chunksOfAux n fuel (l.drop n)

def chunksOf {α : Type} (n : Nat) (l : List α) : List (List α) :=
  chunksOfAux n l.length l

/-! ## AI confirmer, Variant B (src/ai_judge.py `judge_news_with_gemini`)

The HTTP request `model.generate_content(prompt)` together with the
`.text` accessor is the oracle `responses : Nat → Except Unit String`
(batch number to response text, `.error ()` for a raised exception).
Everything from `response.text.strip().split('\n')` on is translated
from the source. -/

/-- `int(line.split(':')[0].replace('No.', ''))` (src/ai_judge.py
lines 45 and 49); `none` models the `ValueError` raised by `int`. -/
def parseLineIdx (line : String) : Option Int :=
  pyInt (pyReplace (String.mk (charsTakeUntil ':' line.data)) "No." "")

/-- The shared body of the two branches of the line parser (src/ai_judge.py
lines 45-47 and 49-51): parse the index, test `idx < len(chunk)`, and on
success append `chunk[idx]` to the target list. `.error ()` models an
exception (from `int` or from the subscription) escaping to the per-batch
`except` handler. -/
def confirmIdx (chunk acc : List NewsItem) (line : String) :
    Except Unit (List NewsItem) :=
  match parseLineIdx line with
  | none => .error ()
  | some idx =>
    if idx < (chunk.length : Int) then
      match pyIndex chunk idx with
      | none => .error ()
      | some item => .ok (acc ++ [item])
    else .ok acc

/-- One iteration of `for line in lines` (src/ai_judge.py lines 43-51):
the `if "BAD" in line: ... elif "GOOD" in line: ...` dispatch. -/
def processLine (chunk bad good : List NewsItem) (line : String) :
    Except Unit (List NewsItem × List NewsItem) :=
  if strContains line "BAD" then
    match confirmIdx chunk bad line with
    | .error _ => .error ()
    | .ok b => .ok (b, good)
  else if strContains line "GOOD" then
    match confirmIdx chunk good line with
    | .error _ => .error ()
    | .ok g => .ok (bad, g)
  else .ok (bad, good)

/-- The line loop: an exception on a line is caught by the per-batch
`except`, so processing stops and the lists accumulated so far (which
already include appends made by earlier lines of the same batch) are
kept. -/
def processLines (chunk : List NewsItem) (lines : List String)
    (bad good : List NewsItem) : List NewsItem × List NewsItem :=
  match lines with
  | [] => (bad, good)
  | line :: rest =>
    match processLine chunk bad good line with
    | .error _ => (bad, good)
    | .ok (b, g) => processLines chunk rest b g

/-- `response.text.strip().split('\n')`. -/
def respLines (text : String) : List String :=
  (pySplitChar '\n' (pyStrip text.data)).map String.mk

/-- The batch loop of Variant B (src/ai_judge.py lines 18-56); `k` is the
batch number used to query the response oracle. -/
def runBatchesB (responses : Nat → Except Unit String) :
    Nat → List (List NewsItem) → List NewsItem × List NewsItem →
    List NewsItem × List NewsItem
  | _, [], acc => acc
  | k, chunk :: rest, (bad, good) =>
    match responses k with
    | .error _ => runBatchesB responses (k + 1) rest (bad, good)
    | .ok text =>
      runBatchesB responses (k + 1) rest (processLines chunk (respLines text) bad good)

/-- Variant B, `judge_news_with_gemini` of src/ai_judge.py. The third
component counts external model calls (one per processed batch). -/
def judge_news_with_gemini_B (news_list : List NewsItem)
    (responses : Nat → Except Unit String) :
    List NewsItem × List NewsItem × Nat :=
  if news_list.isEmpty then ([], [], 0)
  else
    let chunks := chunksOf 10 news_list
    let r := runBatchesB responses 0 chunks ([], [])
    (r.1, r.2, chunks.length)

/-! ## AI confirmer, Variant A (main.py `judge_news_with_gemini`,
lines 161-236)

Here the request, the code-fence stripping and `json.loads` are the
oracle: `.error ()` models a raised exception (request failure or JSON
parse failure), `.ok` carries the parsed JSON value, of which the code
only distinguishes "a list whose elements are ints or non-ints" from
"not a list" (`isinstance` checks, main.py lines 224-227). -/

inductive JVal : Type where
  | jint (n : Int)
  | jother
deriving DecidableEq

inductive JResp : Type where
  | jlist (xs : List JVal)
  | jnonlist
deriving DecidableEq

/-- The index-mapping loop of Variant A (main.py lines 225-227): accept
only ints with `0 <= idx < len(chunk)`. -/
def extractChunk (chunk : List NewsItem) (xs : List JVal) : List NewsItem :=
  xs.filterMap fun v =>
    match v with
    | .jint n => if 0 ≤ n ∧ n < (chunk.length : Int) then chunk.get? n.toNat else none
    | .jother => none

/-- The batch loop of Variant A (main.py lines 188-234). -/
def runBatchesA (responses : Nat → Except Unit JResp) :
    Nat → List (List NewsItem) → List NewsItem → List NewsItem
  | _, [], acc => acc
  | k, chunk :: rest, acc =>
    match responses k with
    | .error _ => runBatchesA responses (k + 1) rest acc
    | .ok (.jlist xs) => runBatchesA responses (k + 1) rest (acc ++ extractChunk chunk xs)
    | .ok .jnonlist => runBatchesA responses (k + 1) rest acc

/-- Variant A, `judge_news_with_gemini` of main.py: GOOD-keyword items
are confirmed without AI review; BAD-keyword items go through extraction
in batches of 30. The third component counts external model calls. -/
def judge_news_with_gemini_A (news_list : List NewsItem)
    (responses : Nat → Except Unit JResp) :
    List NewsItem × List NewsItem × Nat :=
  if news_list.isEmpty then ([], [], 0)
  else
    let potential_bad := news_list.filter (fun n => n.type == "BAD")
    let confirmed_good := news_list.filter (fun n => n.type == "GOOD")
    if potential_bad.isEmpty then ([], confirmed_good, 0)
    else
      let chunks := chunksOf 30 potential_bad
      (runBatchesA responses 0 chunks [], confirmed_good, chunks.length)

/-! ## Time window resolution (main.py `get_target_time_range`,
lines 81-104)

A JST wall-clock instant is a calendar day index plus
hour/minute/second/microsecond fields (Asia/Tokyo has a fixed UTC
offset, so `datetime` arithmetic acts on these fields exactly as on an
absolute time line). `timedelta` subtraction is modelled through the
absolute microsecond count, `datetime.replace` by field update — in
particular `replace(hour=.., minute=.., second=..)` leaves the
microsecond field untouched, as in Python. -/

structure PyDateTime where
  day : Int
  hour : Nat
  minute : Nat
  second : Nat
  microsecond : Nat
deriving DecidableEq

def validDT (d : PyDateTime) : Prop :=
  d.hour < 24 ∧ d.minute < 60 ∧ d.second < 60 ∧ d.microsecond < 1000000

instance (d : PyDateTime) : Decidable (validDT d) := by
  unfold validDT
  infer_instance

def toMicros (d : PyDateTime) : Int :=
  (((d.day * 24 + d.hour) * 60 + d.minute) * 60 + d.second) * 1000000 + d.microsecond

def ofMicros (m : Int) : PyDateTime :=
  { day := m / 86400000000
    hour := ((m % 86400000000) / 3600000000).toNat
    minute := ((m % 3600000000) / 60000000).toNat
    second := ((m % 60000000) / 1000000).toNat
    microsecond := (m % 1000000).toNat }

/-- `dt - timedelta(...)` for a delta given in microseconds. -/
def pySubMicros (d : PyDateTime) (delta : Int) : PyDateTime :=
  ofMicros (toMicros d - delta)

/-- `dt.replace(hour=h, minute=m, second=s)`: day and microsecond are
kept. -/
def replaceHMS (d : PyDateTime) (h m s : Nat) : PyDateTime :=
  { d with hour := h, minute := m, second := s }

def microsPerDay : Int := 86400000000

def microsPerHour : Int := 3600000000

/-- `get_target_time_range` (main.py lines 81-104): returns
(start_dt, end_dt, mode). -/
def get_target_time_range (now : PyDateTime) : PyDateTime × PyDateTime × String :=
  if 11 ≤ now.hour ∧ now.hour ≤ 13 then
    let end_dt := replaceHMS now 12 4 59
    let start_dt := replaceHMS (pySubMicros now microsPerDay) 17 0 0
    (start_dt, end_dt, "NOON_CHECK")
  else if 16 ≤ now.hour ∧ now.hour ≤ 18 then
    let start_dt := replaceHMS now 12 5 0
    let end_dt := replaceHMS now 16 59 59
    (start_dt, end_dt, "EVENING_CHECK")
  else
    (pySubMicros now (6 * microsPerHour), now, "MANUAL_CHECK")

/-! ## Notifier (main.py lines 242-311 and src/mail_handler.py)

The SMTP and IMAP sessions are pure effects; a run of
`send_and_clean_email` is modelled by the trace of external actions it
performs. `smtpOk` tells whether the SMTP phase of the try-block runs to
completion or raises partway (in which case the cleanup is never
reached). -/

inductive MailAction : Type where
  | smtpOpen
  | smtpSendMsg
  | imapCleanup
deriving DecidableEq

/-- Python truthiness of the `body` argument: `None` and `""` are falsy. -/
def pyFalsyStr : Option String → Bool
  | none => true
  | some s => s = ""

/-- `send_and_clean_email` of main.py (lines 289-311): the `if not body:
return` guard, then the SMTP send followed on success by the sent-folder
cleanup. -/
def send_and_clean_email_main (_subject : String) (body : Option String)
    (smtpOk : Bool) : List MailAction :=
  if pyFalsyStr body then []
  else if smtpOk then [.smtpOpen, .smtpSendMsg, .imapCleanup]
  else [.smtpOpen]

/-- `send_and_clean_email` of src/mail_handler.py (lines 7-29): there is
no empty-body guard. `MIMEText(body)` is evaluated before the try-block,
and `MIMEText(None)` raises an uncaught `AttributeError` — modelled by
`.error ()`; any string body (empty included) proceeds to the send. -/
def send_and_clean_email_src (_subject : String) (body : Option String)
    (smtpOk : Bool) : Except Unit (List MailAction) :=
  match body with
  | none => .error ()
  | some _ =>
    if smtpOk then .ok [.smtpOpen, .smtpSendMsg, .imapCleanup]
    else .ok [.smtpOpen]

/-- The separator written after every item block: `"-" * 20 + "\n"`. -/
def sepLine : String := "--------------------\n"

/-- One numbered block of `create_body` in main.py (lines 253-258):
ticker, time, title, link, separator. -/
def blockMain (i : Nat) (n : NewsItem) : String :=
  toString i ++ ". [" ++ n.ticker ++ "] \n" ++
  "【時刻】 " ++ n.time ++ "\n" ++
  "【ニュース】 " ++ n.title ++ "\n" ++
  "【リンク】 " ++ n.link ++ "\n" ++
  sepLine

/-- One numbered block of `create_body` in src/mail_handler.py
(lines 71-75): ticker, time, title, separator — no link line. -/
def blockSrc (i : Nat) (n : NewsItem) : String :=
  toString i ++ ". [" ++ n.ticker ++ "] \n" ++
  "【時刻】 " ++ n.time ++ "\n" ++
  "【ニュース】 " ++ n.title ++ "\n" ++
  sepLine

/-- The `for i, news in enumerate(news_list, 1)` accumulation. -/
def bodyBlocks (block : Nat → NewsItem → String) : Nat → List NewsItem → String
  | _, [] => ""
  | i, n :: rest => block i n ++ bodyBlocks block (i + 1) rest

def bodyHeader (tp : String) : String :=
  "株式暴騰暴落ニュース監視システムです。\n" ++
  (if tp = "警告" then "保有銘柄（日本株）に暴落リスクのある悪材料を検知しました。\n\n"
   else "保有銘柄（日本株）に福音（好材料）を検知しました。\n\n")

def bodyFooter : String := "\n※自動配信"

/-- `create_body` of main.py (lines 242-261). -/
def create_body_main (news_list : List NewsItem) (tp : String) : Option String :=
  if news_list.isEmpty then none
  else some (bodyHeader tp ++ bodyBlocks blockMain 1 news_list ++ bodyFooter)

/-- `create_body` of src/mail_handler.py (lines 60-78): identical except
that the item block omits the link line. -/
def create_body_src (news_list : List NewsItem) (tp : String) : Option String :=
  if news_list.isEmpty then none
  else some (bodyHeader tp ++ bodyBlocks blockSrc 1 news_list ++ bodyFooter)

/-! ## Helper lemmas -/

theorem charsContains_iff (needle hay : List Char) :
    charsContains needle hay = true ↔ needle <:+: hay := by
  induction hay with
  | nil =>
    simp [charsContains, List.isEmpty_iff, List.infix_nil]
  | cons c t ih =>
    simp [charsContains, Bool.or_eq_true, ih, List.isPrefixOf_iff_prefix,
      List.infix_cons_iff]

theorem strContains_iff (hay needle : String) :
    strContains hay needle = true ↔ needle.data <:+: hay.data :=
  charsContains_iff needle.data hay.data

theorem strContains_refl (k : String) : strContains k k = true := by
  rw [strContains_iff]

theorem strContains_cat_left (a b k : String) (h : strContains a k = true) :
    strContains (a ++ b) k = true := by
  rw [strContains_iff] at h ⊢
  rw [String.data_append]
  obtain ⟨s, t, hst⟩ := h
  exact ⟨s, t ++ b.data, by rw [← hst]; simp⟩

theorem strContains_cat_right (a b k : String) (h : strContains b k = true) :
    strContains (a ++ b) k = true := by
  rw [strContains_iff] at h ⊢
  rw [String.data_append]
  obtain ⟨s, t, hst⟩ := h
  exact ⟨a.data ++ s, t, by rw [← hst]; simp⟩

theorem strContains_trans (a b k : String) (hba : strContains b a = true)
    (hak : strContains a k = true) : strContains b k = true := by
  rw [strContains_iff] at hba hak ⊢
  exact hak.trans hba

theorem pyIndex_mem {α : Type} {l : List α} {i : Int} {x : α}
    (h : pyIndex l i = some x) : x ∈ l := by
  unfold pyIndex at h
  split at h
  · split at h
    · exact absurd h (by simp)
    · exact List.get?_mem h
  · exact List.get?_mem h

theorem chunksOfAux_mem {α : Type} (n : Nat) :
    ∀ (fuel : Nat) (l c : List α), c ∈ chunksOfAux n fuel l → ∀ x ∈ c, x ∈ l := by
  intro fuel
  induction fuel with
  | zero =>
    intro l c hc
    cases l <;> simp [chunksOfAux] at hc
  | succ f ih =>
    intro l c hc x hx
    cases l with
    | nil => simp [chunksOfAux] at hc
    | cons a t =>
      simp only [chunksOfAux, List.mem_cons] at hc
      rcases hc with rfl | hc
      · exact List.mem_of_mem_take hx
      · exact List.mem_of_mem_drop (ih _ _ hc x hx)

theorem chunksOf_mem {α : Type} {n : Nat} {l c : List α} (hc : c ∈ chunksOf n l) :
    ∀ x ∈ c, x ∈ l :=
  chunksOfAux_mem n l.length l c hc

theorem confirmIdx_cases {chunk acc : List NewsItem} {line : String}
    {r : List NewsItem} (h : confirmIdx chunk acc line = .ok r) :
    r = acc ∨ ∃ x ∈ chunk, r = acc ++ [x] := by
  unfold confirmIdx at h
  split at h
  · exact absurd h (by simp)
  · split at h
    · split at h
      · exact absurd h (by simp)
      · rename_i item hitem
        simp only [Except.ok.injEq] at h
        exact Or.inr ⟨item, pyIndex_mem hitem, h.symm⟩
    · simp only [Except.ok.injEq] at h
      exact Or.inl h.symm

theorem processLine_ok {chunk bad good : List NewsItem} {line : String}
    {b g : List NewsItem} (h : processLine chunk bad good line = .ok (b, g)) :
    (b = bad ∨ ∃ x ∈ chunk, b = bad ++ [x]) ∧
    (g = good ∨ ∃ x ∈ chunk, g = good ++ [x]) := by
  unfold processLine at h
  split at h
  · split at h
    · exact absurd h (by simp)
    · rename_i b' hb'
      simp only [Except.ok.injEq, Prod.mk.injEq] at h
      obtain ⟨rfl, rfl⟩ := h
      exact ⟨confirmIdx_cases hb', Or.inl rfl⟩
  · split at h
    · split at h
      · exact absurd h (by simp)
      · rename_i g' hg'
        simp only [Except.ok.injEq, Prod.mk.injEq] at h
        obtain ⟨rfl, rfl⟩ := h
        exact ⟨Or.inl rfl, confirmIdx_cases hg'⟩
    · simp only [Except.ok.injEq, Prod.mk.injEq] at h
      obtain ⟨rfl, rfl⟩ := h
      exact ⟨Or.inl rfl, Or.inl rfl⟩

theorem processLines_mem (chunk : List NewsItem) (lines : List String) :
    ∀ (bad good : List NewsItem),
      (∀ x ∈ (processLines chunk lines bad good).1, x ∈ bad ∨ x ∈ chunk) ∧
      (∀ x ∈ (processLines chunk lines bad good).2, x ∈ good ∨ x ∈ chunk) := by
  induction lines with
  | nil =>
    intro bad good
    exact ⟨fun x hx => Or.inl hx, fun x hx => Or.inl hx⟩
  | cons line rest ih =>
    intro bad good
    simp only [processLines]
    rcases hpl : processLine chunk bad good line with _ | ⟨b, g⟩
    · exact ⟨fun x hx => Or.inl hx, fun x hx => Or.inl hx⟩
    · obtain ⟨hb, hg⟩ := processLine_ok hpl
      obtain ⟨ih1, ih2⟩ := ih b g
      constructor
      · intro x hx
        rcases ih1 x hx with hx' | hx'
        · rcases hb with rfl | ⟨y, hy, rfl⟩
          · exact Or.inl hx'
          · rcases List.mem_append.1 hx' with hm | hm
            · exact Or.inl hm
            · simp only [List.mem_singleton] at hm
              subst hm
              exact Or.inr hy
        · exact Or.inr hx'
      · intro x hx
        rcases ih2 x hx with hx' | hx'
        · rcases hg with rfl | ⟨y, hy, rfl⟩
          · exact Or.inl hx'
          · rcases List.mem_append.1 hx' with hm | hm
            · exact Or.inl hm
            · simp only [List.mem_singleton] at hm
              subst hm
              exact Or.inr hy
        · exact Or.inr hx'

theorem runBatchesB_mem (resp : Nat → Except Unit String) :
    ∀ (chunks : List (List NewsItem)) (k : Nat) (bad good : List NewsItem),
      (∀ x ∈ (runBatchesB resp k chunks (bad, good)).1,
        x ∈ bad ∨ ∃ c ∈ chunks, x ∈ c) ∧
      (∀ x ∈ (runBatchesB resp k chunks (bad, good)).2,
        x ∈ good ∨ ∃ c ∈ chunks, x ∈ c) := by
  intro chunks
  induction chunks with
  | nil =>
    intro k bad good
    exact ⟨fun x hx => Or.inl hx, fun x hx => Or.inl hx⟩
  | cons chunk rest ih =>
    intro k bad good
    simp only [runBatchesB]
    rcases hr : resp k with _ | text
    · obtain ⟨i1, i2⟩ := ih (k + 1) bad good
      constructor
      · intro x hx
        exact (i1 x hx).imp id
          (fun ⟨c, hc, hxc⟩ => ⟨c, List.mem_cons_of_mem _ hc, hxc⟩)
      · intro x hx
        exact (i2 x hx).imp id
          (fun ⟨c, hc, hxc⟩ => ⟨c, List.mem_cons_of_mem _ hc, hxc⟩)
    · dsimp only
      obtain ⟨p1, p2⟩ := processLines_mem chunk (respLines text) bad good
      rcases hres : processLines chunk (respLines text) bad good with ⟨b, g⟩
      rw [hres] at p1 p2
      obtain ⟨i1, i2⟩ := ih (k + 1) b g
      constructor
      · intro x hx
        rcases i1 x hx with hx' | ⟨c, hc, hxc⟩
        · rcases p1 x hx' with hm | hm
          · exact Or.inl hm
          · exact Or.inr ⟨chunk, List.mem_cons_self _ _, hm⟩
        · exact Or.inr ⟨c, List.mem_cons_of_mem _ hc, hxc⟩
      · intro x hx
        rcases i2 x hx with hx' | ⟨c, hc, hxc⟩
        · rcases p2 x hx' with hm | hm
          · exact Or.inl hm
          · exact Or.inr ⟨chunk, List.mem_cons_self _ _, hm⟩
        · exact Or.inr ⟨c, List.mem_cons_of_mem _ hc, hxc⟩

theorem extractChunk_mem {chunk : List NewsItem} {xs : List JVal} {x : NewsItem}
    (hx : x ∈ extractChunk chunk xs) : x ∈ chunk := by
  unfold extractChunk at hx
  rw [List.mem_filterMap] at hx
  obtain ⟨v, _, hv⟩ := hx
  cases v with
  | jint n =>
    dsimp only at hv
    split at hv
    · exact List.get?_mem hv
    · exact absurd hv (by simp)
  | jother => exact absurd hv (by simp)

theorem runBatchesA_mem (resp : Nat → Except Unit JResp) :
    ∀ (chunks : List (List NewsItem)) (k : Nat) (acc : List NewsItem),
      ∀ x ∈ runBatchesA resp k chunks acc, x ∈ acc ∨ ∃ c ∈ chunks, x ∈ c := by
  intro chunks
  induction chunks with
  | nil =>
    intro k acc x hx
    exact Or.inl hx
  | cons chunk rest ih =>
    intro k acc x hx
    simp only [runBatchesA] at hx
    rcases hr : resp k with _ | jr
    · rw [hr] at hx
      exact (ih (k + 1) acc x hx).imp id
        (fun ⟨c, hc, hxc⟩ => ⟨c, List.mem_cons_of_mem _ hc, hxc⟩)
    · rw [hr] at hx
      cases jr with
      | jnonlist =>
        exact (ih (k + 1) acc x hx).imp id
          (fun ⟨c, hc, hxc⟩ => ⟨c, List.mem_cons_of_mem _ hc, hxc⟩)
      | jlist xs =>
        rcases ih (k + 1) _ x hx with hm | ⟨c, hc, hxc⟩
        · rcases List.mem_append.1 hm with hm' | hm'
          · exact Or.inl hm'
          · exact Or.inr ⟨chunk, List.mem_cons_self _ _, extractChunk_mem hm'⟩
        · exact Or.inr ⟨c, List.mem_cons_of_mem _ hc, hxc⟩

theorem judgeB_mem (news : List NewsItem) (resp : Nat → Except Unit String) :
    (∀ x ∈ (judge_news_with_gemini_B news resp).1, x ∈ news) ∧
    (∀ x ∈ (judge_news_with_gemini_B news resp).2.1, x ∈ news) := by
  unfold judge_news_with_gemini_B
  split
  · constructor <;> intro x hx <;> simp at hx
  · dsimp only
    obtain ⟨h1, h2⟩ := runBatchesB_mem resp (chunksOf 10 news) 0 [] []
    constructor
    · intro x hx
      rcases h1 x hx with hm | ⟨c, hc, hxc⟩
      · simp at hm
      · exact chunksOf_mem hc x hxc
    · intro x hx
      rcases h2 x hx with hm | ⟨c, hc, hxc⟩
      · simp at hm
      · exact chunksOf_mem hc x hxc

theorem judgeA_mem (news : List NewsItem) (resp : Nat → Except Unit JResp) :
    (∀ x ∈ (judge_news_with_gemini_A news resp).1, x ∈ news) ∧
    List.Sublist (judge_news_with_gemini_A news resp).2.1 news := by
  unfold judge_news_with_gemini_A
  split
  · constructor
    · intro x hx
      simp at hx
    · exact List.nil_sublist news
  · dsimp only
    split
    · constructor
      · intro x hx
        simp at hx
      · exact List.filter_sublist news
    · constructor
      · intro x hx
        rcases runBatchesA_mem resp (chunksOf 30 (news.filter (fun n => n.type == "BAD"))) 0 [] x hx with
          hm | ⟨c, hc, hxc⟩
        · simp at hm
        · exact List.mem_of_mem_filter (chunksOf_mem hc x hxc)
      · exact List.filter_sublist news

/-- Inversion for the keyword stage: a produced candidate keeps the raw
title, passed the ignore filter, matched a sentiment keyword, and was
tagged with BAD priority. -/
theorem classifyItem_some {startT endT : Int} {fmt : Int → String}
    {ticker : String} {it : RawItem} {c : NewsItem}
    (h : classifyItem startT endT fmt ticker it = some c) :
    c.title = it.title ∧
    IGNORE_KEYWORDS.any (fun k => strContains it.title k) = false ∧
    (BAD_KEYWORDS.any (fun k => strContains it.title k)
      || GOOD_KEYWORDS.any (fun k => strContains it.title k)) = true ∧
    c.type = (if BAD_KEYWORDS.any (fun k => strContains it.title k) then "BAD"
      else "GOOD") := by
  unfold classifyItem at h
  split at h
  · split at h
    · exact absurd h (by simp)
    · rename_i hig
      dsimp only at h
      split at h
      · rename_i hbg
        simp only [Option.some.injEq] at h
        subst h
        exact ⟨rfl, by simpa using hig, hbg, rfl⟩
      · exact absurd h (by simp)
  · exact absurd h (by simp)

theorem fetch_mem {startT endT : Int} {fmt : Int → String}
    {fetched : List (String × Except Unit (List RawItem))} {c : NewsItem}
    (hc : c ∈ fetch_stock_news startT endT fmt fetched) :
    ∃ ticker items it, (ticker, Except.ok items) ∈ fetched ∧ it ∈ items ∧
      classifyItem startT endT fmt ticker it = some c := by
  unfold fetch_stock_news at hc
  suffices h : ∀ (l : List (String × Except Unit (List RawItem)))
      (acc : List NewsItem),
      c ∈ l.foldl (fun acc tr =>
        match tr.2 with
        | .error _ => acc
        | .ok items => acc ++ items.filterMap (classifyItem startT endT fmt tr.1)) acc →
      c ∈ acc ∨ ∃ ticker items it, (ticker, Except.ok items) ∈ l ∧ it ∈ items ∧
        classifyItem startT endT fmt ticker it = some c by
    rcases h fetched [] hc with hm | hm
    · simp at hm
    · exact hm
  intro l
  induction l with
  | nil =>
    intro acc hacc
    exact Or.inl hacc
  | cons tr rest ih =>
    intro acc hacc
    simp only [List.foldl_cons] at hacc
    rcases htr : tr.2 with _ | items
    · rw [htr] at hacc
      rcases ih acc hacc with hm | ⟨t, is, it, hmem, hit, hcl⟩
      · exact Or.inl hm
      · exact Or.inr ⟨t, is, it, List.mem_cons_of_mem _ hmem, hit, hcl⟩
    · rw [htr] at hacc
      rcases ih _ hacc with hm | ⟨t, is, it, hmem, hit, hcl⟩
      · rcases List.mem_append.1 hm with hm' | hm'
        · exact Or.inl hm'
        · rw [List.mem_filterMap] at hm'
          obtain ⟨it, hit, hcl⟩ := hm'
          refine Or.inr ⟨tr.1, items, it, ?_, hit, hcl⟩
          have : tr = (tr.1, Except.ok items) := by
            rcases tr with ⟨t1, t2⟩
            simpa using htr
          rw [← this]
          exact List.mem_cons_self _ _
      · exact Or.inr ⟨t, is, it, List.mem_cons_of_mem _ hmem, hit, hcl⟩

/-- Full case analysis of the index handling shared by both confirmation
branches of the Variant-B line parser. -/
theorem confirmIdx_spec (chunk acc : List NewsItem) (line : String) (idx : Int)
    (hp : parseLineIdx line = some idx) :
    ((chunk.length : Int) ≤ idx → confirmIdx chunk acc line = .ok acc) ∧
    (0 ≤ idx → idx < (chunk.length : Int) →
      ∃ x, chunk.get? idx.toNat = some x ∧
        confirmIdx chunk acc line = .ok (acc ++ [x])) ∧
    (-(chunk.length : Int) ≤ idx → idx < 0 →
      ∃ x, chunk.get? (idx + (chunk.length : Int)).toNat = some x ∧
        confirmIdx chunk acc line = .ok (acc ++ [x])) ∧
    (idx < -(chunk.length : Int) → confirmIdx chunk acc line = .error ()) := by
  refine ⟨?_, ?_, ?_, ?_⟩
  · intro hge
    simp only [confirmIdx, hp]
    rw [if_neg (by omega)]
  · intro h0 hlt
    have hk : idx.toNat < chunk.length := by omega
    obtain ⟨x, hx⟩ : ∃ x, chunk.get? idx.toNat = some x :=
      ⟨_, List.get?_eq_get hk⟩
    refine ⟨x, hx, ?_⟩
    simp only [confirmIdx, hp]
    rw [if_pos hlt]
    simp only [pyIndex]
    rw [if_neg (by omega), hx]
  · intro hge hneg
    have hk : (idx + (chunk.length : Int)).toNat < chunk.length := by omega
    obtain ⟨x, hx⟩ : ∃ x, chunk.get? (idx + (chunk.length : Int)).toNat = some x :=
      ⟨_, List.get?_eq_get hk⟩
    refine ⟨x, hx, ?_⟩
    simp only [confirmIdx, hp]
    rw [if_pos (by omega)]
    simp only [pyIndex]
    rw [if_pos hneg, if_neg (by omega), hx]
  · intro hlt
    simp only [confirmIdx, hp]
    rw [if_pos (by omega)]
    simp only [pyIndex]
    rw [if_pos (by omega), if_pos (by omega)]

/-! ## Datetime lemmas -/

theorem ofMicros_toMicros (d : PyDateTime) (h : validDT d) :
    ofMicros (toMicros d) = d := by
  obtain ⟨h1, h2, h3, h4⟩ := h
  rcases d with ⟨day, hour, minute, second, micro⟩
  simp only [toMicros, ofMicros, PyDateTime.mk.injEq] at *
  refine ⟨?_, ?_, ?_, ?_, ?_⟩ <;> omega

theorem pySubMicros_day (d : PyDateTime) (h : validDT d) :
    pySubMicros d microsPerDay = { d with day := d.day - 1 } := by
  unfold pySubMicros microsPerDay
  have heq : toMicros d - 86400000000 = toMicros { d with day := d.day - 1 } := by
    simp only [toMicros]
    ring
  rw [heq, ofMicros_toMicros]
  exact h

/-! ## Mail body lemmas -/

theorem bodyBlocks_contains (block : Nat → NewsItem → String) :
    ∀ (l : List NewsItem) (i j : Nat) (h : j < l.length),
      strContains (bodyBlocks block i l) (block (i + j) (l.get ⟨j, h⟩)) = true := by
  intro l
  induction l with
  | nil =>
    intro i j h
    simp at h
  | cons n rest ih =>
    intro i j h
    cases j with
    | zero =>
      simp only [bodyBlocks, Nat.add_zero, List.get]
      exact strContains_cat_left _ _ _ (strContains_refl _)
    | succ j' =>
      simp only [bodyBlocks, List.get]
      have hrec := ih (i + 1) j' (by simpa using h)
      have heq : i + 1 + j' = i + (j' + 1) := by omega
      rw [heq] at hrec
      exact strContains_cat_right _ _ _ hrec

theorem blockMain_contains (i : Nat) (n : NewsItem) :
    strContains (blockMain i n) n.ticker = true ∧
    strContains (blockMain i n) n.time = true ∧
    strContains (blockMain i n) n.title = true ∧
    strContains (blockMain i n) n.link = true ∧
    strContains (blockMain i n) sepLine = true := by
  unfold blockMain
  refine ⟨?_, ?_, ?_, ?_, ?_⟩
  · apply strContains_cat_left
    apply strContains_cat_left
    apply strContains_cat_left
    apply strContains_cat_left
    apply strContains_cat_left
    apply strContains_cat_left
    apply strContains_cat_left
    apply strContains_cat_left
    apply strContains_cat_left
    apply strContains_cat_left
    apply strContains_cat_left
    apply strContains_cat_right
    exact strContains_refl _
  · apply strContains_cat_left
    apply strContains_cat_left
    apply strContains_cat_left
    apply strContains_cat_left
    apply strContains_cat_left
    apply strContains_cat_left
    apply strContains_cat_left
    apply strContains_cat_left
    apply strContains_cat_right
    exact strContains_refl _
  · apply strContains_cat_left
    apply strContains_cat_left
    apply strContains_cat_left
    apply strContains_cat_left
    apply strContains_cat_left
    apply strContains_cat_right
    exact strContains_refl _
  · apply strContains_cat_left
    apply strContains_cat_left
    apply strContains_cat_right
    exact strContains_refl _
  · apply strContains_cat_right
    exact strContains_refl _

theorem blockSrc_contains (i : Nat) (n : NewsItem) :
    strContains (blockSrc i n) n.ticker = true ∧
    strContains (blockSrc i n) n.time = true ∧
    strContains (blockSrc i n) n.title = true ∧
    strContains (blockSrc i n) sepLine = true := by
  unfold blockSrc
  refine ⟨?_, ?_, ?_, ?_⟩
  · apply strContains_cat_left
    apply strContains_cat_left
    apply strContains_cat_left
    apply strContains_cat_left
    apply strContains_cat_left
    apply strContains_cat_left
    apply strContains_cat_left
    apply strContains_cat_left
    apply strContains_cat_right
    exact strContains_refl _
  · apply strContains_cat_left
    apply strContains_cat_left
    apply strContains_cat_left
    apply strContains_cat_left
    apply strContains_cat_left
    apply strContains_cat_right
    exact strContains_refl _
  · apply strContains_cat_left
    apply strContains_cat_left
    apply strContains_cat_right
    exact strContains_refl _
  · apply strContains_cat_right
    exact strContains_refl _

theorem create_body_main_contains (news : List NewsItem) (tp : String)
    (j : Nat) (h : j < news.length) :
    ∃ body, create_body_main news tp = some body ∧
      strContains body (blockMain (1 + j) (news.get ⟨j, h⟩)) = true := by
  have hne : news.isEmpty = false := by
    cases news
    · simp at h
    · rfl
  unfold create_body_main
  rw [hne]
  refine ⟨_, rfl, ?_⟩
  apply strContains_cat_left
  apply strContains_cat_right
  exact bodyBlocks_contains blockMain news 1 j h

theorem create_body_src_contains (news : List NewsItem) (tp : String)
    (j : Nat) (h : j < news.length) :
    ∃ body, create_body_src news tp = some body ∧
      strContains body (blockSrc (1 + j) (news.get ⟨j, h⟩)) = true := by
  have hne : news.isEmpty = false := by
    cases news
    · simp at h
    · rfl
  unfold create_body_src
  rw [hne]
  refine ⟨_, rfl, ?_⟩
  apply strContains_cat_left
  apply strContains_cat_right
  exact bodyBlocks_contains blockSrc news 1 j h

theorem runBatchesB_const_error :
    ∀ (chunks : List (List NewsItem)) (k : Nat)
      (acc : List NewsItem × List NewsItem),
      runBatchesB (fun _ => .error ()) k chunks acc = acc := by
  intro chunks
  induction chunks with
  | nil =>
    intro k acc
    rfl
  | cons c rest ih =>
    intro k acc
    rcases acc with ⟨b, g⟩
    simp only [runBatchesB]
    exact ih (k + 1) (b, g)

/-! ## Concrete inputs used by counterexamples and witnesses -/

def mkN (i : Nat) : NewsItem :=
  { ticker := "7203.T"
    title := "タイトル" ++ toString i
    time := "01/01 09:00"
    link := "https://news.example/" ++ toString i
    type := "BAD" }

def rawIgn : RawItem :=
  ⟨50, "決算は赤字だがキャンペーン開催", "https://news.example/ig"⟩

def rawBoth : RawItem :=
  ⟨50, "下方修正も自社株買い発表", "https://news.example/both"⟩

def cW : NewsItem :=
  ⟨"7203.T", "赤字テスト", "01/01 09:00", "https://news.example/w", "BAD"⟩

def fetchedW : List (String × Except Unit (List RawItem)) :=
  [("7203.T", .ok [⟨50, "赤字テスト", "https://news.example/w"⟩])]

def cBoth : NewsItem :=
  ⟨"7203.T", "下方修正も自社株買い発表", "01/01 09:00", "https://news.example/both", "BAD"⟩

def fetchedBoth : List (String × Except Unit (List RawItem)) :=
  [("7203.T", .ok [rawBoth])]

def linkItem : NewsItem :=
  ⟨"7203.T", "赤字転落", "01/01 09:00", "https://news.example/xyz", "BAD"⟩

/-! ## Claim C1 -/

/-- C1 (counterexample): the claim says a Variant-B confirmation index is
accepted only when `0 <= index < batch length` and that an out-of-bounds
index never causes a confirmation. On a 3-item batch the response line
`No.-1: BAD` parses to the index `-1`, which is outside `[0, 3)`; the
code's only check is `idx < len(chunk)`, so Python's negative indexing
confirms the last candidate of the batch. -/
theorem c1_counterexample :
    judge_news_with_gemini_B [mkN 0, mkN 1, mkN 2] (fun _ => .ok "No.-1: BAD") =
      ([mkN 2], [], 1) ∧
    parseLineIdx "No.-1: BAD" = some (-1) ∧ ((-1 : Int) < 0) :=
  ⟨by decide, by decide, by decide⟩

/-- C1 (amended): the line parser enforces only the upper bound. For a
parsed index `idx` on a confirmation line: `idx ≥ len` is dropped;
`0 ≤ idx < len` confirms `chunk[idx]`; `-len ≤ idx < 0` confirms
`chunk[len + idx]` (Python negative indexing); `idx < -len` raises
`IndexError`, aborting the rest of that batch's lines. -/
theorem c1_amended (chunk acc : List NewsItem) (line : String) (idx : Int)
    (hp : parseLineIdx line = some idx) :
    ((chunk.length : Int) ≤ idx → confirmIdx chunk acc line = .ok acc) ∧
    (0 ≤ idx → idx < (chunk.length : Int) →
      ∃ x, chunk.get? idx.toNat = some x ∧
        confirmIdx chunk acc line = .ok (acc ++ [x])) ∧
    (-(chunk.length : Int) ≤ idx → idx < 0 →
      ∃ x, chunk.get? (idx + (chunk.length : Int)).toNat = some x ∧
        confirmIdx chunk acc line = .ok (acc ++ [x])) ∧
    (idx < -(chunk.length : Int) → confirmIdx chunk acc line = .error ()) :=
  confirmIdx_spec chunk acc line idx hp

/-- C1 (witness): the amended theorem applied to a concrete in-bounds
line on a one-item batch. -/
theorem c1_amended_witness :
    ∃ x, [mkN 0].get? (0 : Int).toNat = some x ∧
      confirmIdx [mkN 0] [] "No.0: BAD" = .ok ([] ++ [x]) :=
  (c1_amended [mkN 0] [] "No.0: BAD" 0 (by decide)).2.1 (by decide) (by decide)

/-! ## Claim C2 -/

/-- C2 (counterexample): the claim says a parse failure drops the whole
batch's results. Batch `[mkN 0, mkN 1]` gets the response
`No.0: BAD\nxx BAD`: the second line contains "BAD" but its index part
`xx BAD` makes `int()` raise, so the per-batch handler fires — yet
`mkN 0`, confirmed by the first line of the same batch, stays in the
confirmed-bad output. -/
theorem c2_counterexample :
    processLine [mkN 0, mkN 1] [mkN 0] [] "xx BAD" = .error () ∧
    judge_news_with_gemini_B [mkN 0, mkN 1]
      (fun _ => .ok "No.0: BAD\nxx BAD") = ([mkN 0], [], 1) :=
  ⟨rfl, by decide⟩

/-- C2 (amended): a request failure (exception before any line is
parsed) contributes nothing from that batch and later batches still run;
a parse failure stops only the remaining lines of that batch's response,
keeping confirmations appended by its earlier lines; a run whose every
request fails returns two empty lists. -/
theorem c2_amended :
    (∀ (resp : Nat → Except Unit String) (k : Nat) (chunk : List NewsItem)
        (rest : List (List NewsItem)) (bad good : List NewsItem),
        resp k = .error () →
        runBatchesB resp k (chunk :: rest) (bad, good) =
          runBatchesB resp (k + 1) rest (bad, good)) ∧
    (∀ (chunk : List NewsItem) (line : String) (rest : List String)
        (bad good : List NewsItem),
        processLine chunk bad good line = .error () →
        processLines chunk (line :: rest) bad good = (bad, good)) ∧
    (∀ news_list : List NewsItem,
        judge_news_with_gemini_B news_list (fun _ => .error ()) =
          ([], [], (chunksOf 10 news_list).length)) := by
  refine ⟨?_, ?_, ?_⟩
  · intro resp k chunk rest bad good h
    simp only [runBatchesB, h]
  · intro chunk line rest bad good h
    simp only [processLines, h]
  · intro news_list
    unfold judge_news_with_gemini_B
    split
    · rename_i hemp
      have hnil : news_list = [] := by simpa using hemp
      subst hnil
      rfl
    · dsimp only
      rw [runBatchesB_const_error]

/-- C2 (witness): the amended theorem applied at concrete inputs. -/
theorem c2_amended_witness :
    runBatchesB (fun _ => .error ()) 0 [[mkN 0]] ([], []) =
      runBatchesB (fun _ => .error ()) 1 [] ([], []) ∧
    processLines [mkN 0, mkN 1] ["xx BAD"] [mkN 0] [] = ([mkN 0], []) :=
  ⟨c2_amended.1 (fun _ => .error ()) 0 [mkN 0] [] [] [] rfl,
   c2_amended.2.1 [mkN 0, mkN 1] "xx BAD" [] [mkN 0] [] rfl⟩

/-! ## Claim C3 -/

/-- C3 (counterexample): the claim says the NOON window end equals
`12:04:59` of the same day regardless of the sub-second part of the
invocation instant. `datetime.replace(hour=12, minute=4, second=59)`
keeps the microsecond field, so at 12:30:07.123456 the window end is
12:04:59.123456, and the resolved window differs from the one resolved
at 12:30:07.000000. -/
theorem c3_counterexample :
    (get_target_time_range ⟨100, 12, 30, 7, 123456⟩).2.1 ≠
      (⟨100, 12, 4, 59, 0⟩ : PyDateTime) ∧
    get_target_time_range ⟨100, 12, 30, 7, 123456⟩ ≠
      get_target_time_range ⟨100, 12, 30, 7, 0⟩ :=
  ⟨by decide, by decide⟩

/-- C3 (amended): for any valid instant with hour in [11, 13] the
resolver returns mode NOON_CHECK, window end 12:04:59 same day and start
17:00:00 the previous day regardless of the invocation's minute and
second — but both endpoints carry the invocation's microsecond, since
`replace` leaves unspecified fields alone. -/
theorem c3_amended (now : PyDateTime) (hv : validDT now)
    (h1 : 11 ≤ now.hour) (h2 : now.hour ≤ 13) :
    get_target_time_range now =
      (⟨now.day - 1, 17, 0, 0, now.microsecond⟩,
       ⟨now.day, 12, 4, 59, now.microsecond⟩, "NOON_CHECK") := by
  unfold get_target_time_range
  rw [if_pos ⟨h1, h2⟩]
  rw [pySubMicros_day now hv]
  rfl

/-- C3 (witness): the amended theorem applied at 12:30:07.123456 on day
100. -/
theorem c3_amended_witness :
    get_target_time_range ⟨100, 12, 30, 7, 123456⟩ =
      (⟨99, 17, 0, 0, 123456⟩, ⟨100, 12, 4, 59, 123456⟩, "NOON_CHECK") :=
  c3_amended ⟨100, 12, 30, 7, 123456⟩ (by decide) (by decide) (by decide)

/-! ## Claim C4 -/

/-- C4 (counterexample): the claim says `send_and_clean_email` with an
empty or null body is a no-op in both cited files. The
src/mail_handler.py version has no guard: with an empty-string body it
opens an SMTP session, sends, and runs the cleanup; with a null body it
raises in `MIMEText(None)` before the try-block. -/
theorem c4_counterexample :
    send_and_clean_email_src "【警告】テスト" (some "") true =
      .ok [.smtpOpen, .smtpSendMsg, .imapCleanup] ∧
    send_and_clean_email_src "【警告】テスト" none true = .error () :=
  ⟨rfl, rfl⟩

/-- C4 (amended): the main.py `send_and_clean_email` is a no-op for a
null or empty body (no SMTP action, no cleanup); the src/mail_handler.py
version raises on a null body and proceeds with the full send/cleanup
sequence on an empty-string body. -/
theorem c4_amended (subject : String) (smtpOk : Bool) :
    send_and_clean_email_main subject none smtpOk = [] ∧
    send_and_clean_email_main subject (some "") smtpOk = [] ∧
    send_and_clean_email_src subject none smtpOk = .error () ∧
    send_and_clean_email_src subject (some "") smtpOk =
      .ok (if smtpOk then [.smtpOpen, .smtpSendMsg, .imapCleanup]
        else [.smtpOpen]) := by
  cases smtpOk <;> exact ⟨rfl, rfl, rfl, rfl⟩

/-! ## Claim C5 -/

/-- C5 (counterexample): the claim says both `create_body` versions
render a block containing each item's link. The src/mail_handler.py
version has no link line: for a one-item list the produced body does not
contain the item's link at all. -/
theorem c5_counterexample :
    (create_body_src [linkItem] "警告").map
      (fun b => strContains b linkItem.link) = some false := by
  decide

/-- C5 (amended): for every list position, main.py's `create_body`
renders a body containing that item's full numbered block — hence its
ticker, formatted time, title, link and the separator line; the
src/mail_handler.py version renders the same block without the link
line, so its body is only guaranteed to contain ticker, time, title and
separator. -/
theorem c5_amended (news : List NewsItem) (tp : String) (j : Nat)
    (h : j < news.length) :
    ∃ body bodyS,
      create_body_main news tp = some body ∧
      create_body_src news tp = some bodyS ∧
      strContains body (blockMain (1 + j) (news.get ⟨j, h⟩)) = true ∧
      strContains body (news.get ⟨j, h⟩).ticker = true ∧
      strContains body (news.get ⟨j, h⟩).time = true ∧
      strContains body (news.get ⟨j, h⟩).title = true ∧
      strContains body (news.get ⟨j, h⟩).link = true ∧
      strContains body sepLine = true ∧
      strContains bodyS (blockSrc (1 + j) (news.get ⟨j, h⟩)) = true ∧
      strContains bodyS (news.get ⟨j, h⟩).ticker = true ∧
      strContains bodyS (news.get ⟨j, h⟩).time = true ∧
      strContains bodyS (news.get ⟨j, h⟩).title = true ∧
      strContains bodyS sepLine = true := by
  obtain ⟨body, hb, hbc⟩ := create_body_main_contains news tp j h
  obtain ⟨bodyS, hs, hsc⟩ := create_body_src_contains news tp j h
  obtain ⟨t1, t2, t3, t4, t5⟩ := blockMain_contains (1 + j) (news.get ⟨j, h⟩)
  obtain ⟨s1, s2, s3, s4⟩ := blockSrc_contains (1 + j) (news.get ⟨j, h⟩)
  exact ⟨body, bodyS, hb, hs, hbc,
    strContains_trans _ _ _ hbc t1, strContains_trans _ _ _ hbc t2,
    strContains_trans _ _ _ hbc t3, strContains_trans _ _ _ hbc t4,
    strContains_trans _ _ _ hbc t5, hsc,
    strContains_trans _ _ _ hsc s1, strContains_trans _ _ _ hsc s2,
    strContains_trans _ _ _ hsc s3, strContains_trans _ _ _ hsc s4⟩

/-- C5 (witness): the amended theorem applied to a concrete one-item
list. -/
theorem c5_amended_witness :
    ∃ body bodyS,
      create_body_main [mkN 0] "警告" = some body ∧
      create_body_src [mkN 0] "警告" = some bodyS ∧
      strContains body (blockMain (1 + 0) ([mkN 0].get ⟨0, by decide⟩)) = true ∧
      strContains body ([mkN 0].get ⟨0, by decide⟩).ticker = true ∧
      strContains body ([mkN 0].get ⟨0, by decide⟩).time = true ∧
      strContains body ([mkN 0].get ⟨0, by decide⟩).title = true ∧
      strContains body ([mkN 0].get ⟨0, by decide⟩).link = true ∧
      strContains body sepLine = true ∧
      strContains bodyS (blockSrc (1 + 0) ([mkN 0].get ⟨0, by decide⟩)) = true ∧
      strContains bodyS ([mkN 0].get ⟨0, by decide⟩).ticker = true ∧
      strContains bodyS ([mkN 0].get ⟨0, by decide⟩).time = true ∧
      strContains bodyS ([mkN 0].get ⟨0, by decide⟩).title = true ∧
      strContains bodyS sepLine = true :=
  c5_amended [mkN 0] "警告" 0 (by decide)

/-! ## Claim C6 -/

/-- C6 (counterexample): the claim says each output list is an
order-preserving subsequence of the input with no duplicates or
reorderings, for every model response. In both variants the output
follows the order of the indices in the response: the Variant-A response
`[1, 0]` and the Variant-B response `No.1: BAD\nNo.0: BAD` each produce
`[item1, item0]`, which is not a subsequence of `[item0, item1]`. -/
theorem c6_counterexample :
    (judge_news_with_gemini_A [mkN 0, mkN 1]
      (fun _ => .ok (.jlist [.jint 1, .jint 0]))).1 = [mkN 1, mkN 0] ∧
    ¬ List.Sublist (judge_news_with_gemini_A [mkN 0, mkN 1]
      (fun _ => .ok (.jlist [.jint 1, .jint 0]))).1 [mkN 0, mkN 1] ∧
    (judge_news_with_gemini_B [mkN 0, mkN 1]
      (fun _ => .ok "No.1: BAD\nNo.0: BAD")).1 = [mkN 1, mkN 0] ∧
    ¬ List.Sublist (judge_news_with_gemini_B [mkN 0, mkN 1]
      (fun _ => .ok "No.1: BAD\nNo.0: BAD")).1 [mkN 0, mkN 1] :=
  ⟨by decide, by decide, by decide, by decide⟩

/-- C6 (amended): no output item is fabricated — every element of every
output list of either variant is an element of the input candidate
list — and Variant A's confirmed-good list (the keyword GOOD filter) is
an order-preserving subsequence of the input; but the model-driven lists
follow the response's index order, so order preservation and freedom
from duplicates do not hold in general. -/
theorem c6_amended (news : List NewsItem) (respA : Nat → Except Unit JResp)
    (respB : Nat → Except Unit String) :
    (∀ x ∈ (judge_news_with_gemini_A news respA).1, x ∈ news) ∧
    List.Sublist (judge_news_with_gemini_A news respA).2.1 news ∧
    (∀ x ∈ (judge_news_with_gemini_B news respB).1, x ∈ news) ∧
    (∀ x ∈ (judge_news_with_gemini_B news respB).2.1, x ∈ news) := by
  obtain ⟨a1, a2⟩ := judgeA_mem news respA
  obtain ⟨b1, b2⟩ := judgeB_mem news respB
  exact ⟨a1, a2, b1, b2⟩

/-- C6 (witness): the amended theorem applied to a concrete input and
response. -/
theorem c6_amended_witness : mkN 0 ∈ [mkN 0] :=
  (c6_amended [mkN 0] (fun _ => .error ())
    (fun _ => .ok "No.0: BAD")).2.2.1 (mkN 0) (by decide)

/-! ## Claim C7 -/

/-- C7: in the keyword stage, an item whose title contains any
ignore-keyword is dropped unconditionally — `classifyItem` returns
`none` for it whatever the window and sentiment keywords — and
consequently no candidate produced by `fetch_stock_news` has an
ignore-keyword in its title. -/
theorem c7_ignore_drops (startT endT : Int) (fmt : Int → String) :
    (∀ (ticker : String) (it : RawItem),
      IGNORE_KEYWORDS.any (fun k => strContains it.title k) = true →
      classifyItem startT endT fmt ticker it = none) ∧
    (∀ (fetched : List (String × Except Unit (List RawItem))) (c : NewsItem),
      c ∈ fetch_stock_news startT endT fmt fetched →
      IGNORE_KEYWORDS.any (fun k => strContains c.title k) = false) := by
  constructor
  · intro ticker it hig
    simp only [classifyItem, hig, if_true]
    split <;> rfl
  · intro fetched c hc
    obtain ⟨t, items, it, _, _, hcl⟩ := fetch_mem hc
    obtain ⟨ht, hig, _, _⟩ := classifyItem_some hcl
    rw [ht]
    exact hig

/-- C7 (witness): the spec's example title
`決算は赤字だがキャンペーン開催` contains the BAD keyword `赤字` and the
ignore keywords `キャンペーン` and `開催`; inside the window it is still
dropped, and a concrete fetch output contains no ignore keyword. -/
theorem c7_witness :
    classifyItem 0 100 (fun _ => "01/01 09:00") "7203.T" rawIgn = none ∧
    IGNORE_KEYWORDS.any (fun k => strContains cW.title k) = false :=
  ⟨(c7_ignore_drops 0 100 (fun _ => "01/01 09:00")).1 "7203.T" rawIgn (by decide),
   (c7_ignore_drops 0 100 (fun _ => "01/01 09:00")).2 fetchedW cW (by decide)⟩

/-! ## Claim C8 -/

/-- C8: every candidate whose title matches a BAD keyword is tagged BAD,
even when a GOOD keyword also matches (`"BAD" if is_bad else "GOOD"`);
a candidate is tagged GOOD only when a GOOD keyword matches and no BAD
keyword does. -/
theorem c8_bad_priority (startT endT : Int) (fmt : Int → String)
    (fetched : List (String × Except Unit (List RawItem))) (c : NewsItem)
    (hc : c ∈ fetch_stock_news startT endT fmt fetched) :
    (BAD_KEYWORDS.any (fun k => strContains c.title k) = true →
      c.type = "BAD") ∧
    (c.type = "GOOD" →
      GOOD_KEYWORDS.any (fun k => strContains c.title k) = true ∧
      BAD_KEYWORDS.any (fun k => strContains c.title k) = false) := by
  obtain ⟨t, items, it, _, _, hcl⟩ := fetch_mem hc
  obtain ⟨ht, _, hbg, hty⟩ := classifyItem_some hcl
  rw [ht]
  constructor
  · intro hbad
    rw [hty, if_pos hbad]
  · intro hgood
    by_cases hbad : BAD_KEYWORDS.any (fun k => strContains it.title k) = true
    · rw [hty, if_pos hbad] at hgood
      exact absurd hgood (by decide)
    · have hbf : BAD_KEYWORDS.any (fun k => strContains it.title k) = false := by
        simpa using hbad
      rw [hbf] at hbg
      simp only [Bool.false_or] at hbg
      exact ⟨hbg, hbf⟩

/-- C8 (witness): the spec's example title `下方修正も自社株買い発表`
matches both a BAD keyword (`下方修正`) and a GOOD keyword
(`自社株買い`); the produced candidate is tagged BAD. -/
theorem c8_witness :
    BAD_KEYWORDS.any (fun k => strContains cBoth.title k) = true ∧
    GOOD_KEYWORDS.any (fun k => strContains cBoth.title k) = true ∧
    cBoth.type = "BAD" :=
  ⟨by decide, by decide,
   (c8_bad_priority 0 100 (fun _ => "01/01 09:00") fetchedBoth cBoth
     (by decide)).1 (by decide)⟩

/-! ## Claim C9 -/

/-- C9: both AI-confirmer variants return exactly two empty lists on an
empty candidate list and make zero external model calls (the third
output component counts calls). -/
theorem c9_empty_short_circuit (respA : Nat → Except Unit JResp)
    (respB : Nat → Except Unit String) :
    judge_news_with_gemini_A [] respA = ([], [], 0) ∧
    judge_news_with_gemini_B [] respB = ([], [], 0) :=
  ⟨rfl, rfl⟩

/-! ## Claim C10 -/

/-- C10: in Variant B a response line containing both "BAD" and "GOOD"
that parses to an in-bounds index confirms the indexed item as BAD and
leaves the confirmed-good list untouched: the `if "BAD" in line` branch
is checked before the `elif "GOOD" in line` branch. -/
theorem c10_line_bad_over_good (chunk bad good : List NewsItem)
    (line : String) (idx : Int) (hB : strContains line "BAD" = true)
    (_hG : strContains line "GOOD" = true)
    (hp : parseLineIdx line = some idx) (h0 : 0 ≤ idx)
    (hlt : idx < (chunk.length : Int)) :
    ∃ x, chunk.get? idx.toNat = some x ∧
      processLine chunk bad good line = .ok (bad ++ [x], good) := by
  obtain ⟨x, hx, hci⟩ := (confirmIdx_spec chunk bad line idx hp).2.1 h0 hlt
  refine ⟨x, hx, ?_⟩
  unfold processLine
  rw [if_pos hB, hci]

/-- C10 (witness): the theorem applied to the line `No.0: BADGOOD`,
which contains both labels, on a one-item batch. -/
theorem c10_witness :
    ∃ x, [mkN 0].get? (0 : Int).toNat = some x ∧
      processLine [mkN 0] [] [] "No.0: BADGOOD" = .ok ([] ++ [x], []) :=
  c10_line_bad_over_good [mkN 0] [] [] "No.0: BADGOOD" 0 (by decide)
    (by decide) (by decide) (by decide) (by decide)

end StockNews
